import Mathlib

/-!
Shallow embedding of the phone-book contact store from src/src/lib.rs.

The Rust `PhoneBook` stores a `HashSet<Contact>` whose equality and hash are
defined only on `phone_number`.  We model the set as a `List Contact` and the
three `HashSet` primitives the code uses (`insert`, `replace`, `remove`) as
list functions that compare contacts by phone number, exactly as the
`PartialEq`/`Hash` impls do.  Stateful methods (`&mut self`) become functions
returning the new store paired with the `Result`; `anyhow` error messages are
mapped to a typed error enum.
-/

namespace PhoneBookModel

/-- Models `struct Address` (src/src/lib.rs lines 13-19): five free-text
string fields. -/
structure Address where
  street_address : String
  city : String
  state : String
  postcode : String
  country : String
deriving DecidableEq

/-- Models `struct Contact` (src/src/lib.rs lines 22-27): names, phone number
and an optional address. -/
structure Contact where
  first_name : String
  last_name : String
  phone_number : String
  address : Option Address
deriving DecidableEq

/-- Models `impl PartialEq for Contact` (src/src/lib.rs lines 31-35): two
contacts are equal exactly when their phone numbers are equal; the `Hash`
impl (lines 37-41) is consistent with it. -/
def contactEq (a b : Contact) : Bool :=
  a.phone_number == b.phone_number

/-- The typed errors behind the `anyhow!` messages in src/src/lib.rs:
"phone number must be 10 characters long", "number already exists unable
insert", and the not-found messages of replace/delete/find. -/
inductive Error where
  | invalidPhoneNumber
  | duplicateContact
  | notFound
deriving DecidableEq

/-- Models `struct PhoneBook` (src/src/lib.rs lines 43-46): the
`HashSet<Contact>` is modelled as a list; the set is unordered, so all
claims are stated up to membership. -/
structure PhoneBook where
  contacts : List Contact
deriving DecidableEq

/-- UTF-8 byte count of one character, as in Rust's UTF-8 string encoding. -/
def charUtf8Size (c : Char) : Nat :=
  if c.val.toNat < 0x80 then 1
  else if c.val.toNat < 0x800 then 2
  else if c.val.toNat < 0x10000 then 3
  else 4

/-- Models Rust `str::len()`: the number of BYTES of the UTF-8 encoding,
which is not the number of characters for non-ASCII strings. -/
def strByteLen (s : String) : Nat :=
  (s.data.map charUtf8Size).sum

/-- Models `is_valid_phone_number` (src/src/lib.rs lines 141-147): `Ok(())`
when `number.len() == 10` (byte length), else the invalid-phone error. -/
def is_valid_phone_number (number : String) : Except Error Unit :=
  if strByteLen number == 10 then Except.ok ()
  else Except.error Error.invalidPhoneNumber

/-- Models `HashSet::insert` under the phone-number equality: if an equal
member (same phone number) is present the set is unchanged and the result is
`false`; otherwise the value is added and the result is `true`. -/
def hsInsert (l : List Contact) (c : Contact) : List Contact × Bool :=
  if l.any (fun x => contactEq x c) then (l, false) else (l ++ [c], true)

/-- Models `HashSet::replace` under the phone-number equality: the value is
added to the set, REPLACING the existing equal member if there is one (in
which case the old member is returned); when no equal member exists the value
is still added and `none` is returned. -/
def hsReplace (l : List Contact) (c : Contact) : List Contact × Option Contact :=
  match l with
  | [] => ([c], none)
  | x :: xs =>
    if contactEq x c then (c :: xs, some x)
    else
      let r := hsReplace xs c
      (x :: r.fst, r.snd)

/-- Models `HashSet::remove` under the phone-number equality: removes the
equal member if present, returning whether a member was removed. -/
def hsRemove (l : List Contact) (key : Contact) : List Contact × Bool :=
  match l with
  | [] => ([], false)
  | x :: xs =>
    if contactEq x key then (xs, true)
    else
      let r := hsRemove xs key
      (x :: r.fst, r.snd)

/-- Models `PhoneBook::new` (src/src/lib.rs lines 49-53): the empty store. -/
def PhoneBook.new : PhoneBook := ⟨[]⟩

/-- Models `PhoneBook::insert_contact` (src/src/lib.rs lines 76-84):
validate the phone number, then `HashSet::insert`; a `false` insert result
becomes the duplicate error.  Returns the store after the call together with
the `Result`. -/
def insert_contact (pb : PhoneBook) (contact : Contact) :
    PhoneBook × Except Error Unit :=
  match is_valid_phone_number contact.phone_number with
  | Except.error e => (pb, Except.error e)
  | Except.ok _ =>
    let r := hsInsert pb.contacts contact
    if r.snd then (⟨r.fst⟩, Except.ok ())
    else (⟨r.fst⟩, Except.error Error.duplicateContact)

/-- Models `PhoneBook::replace_contact` (src/src/lib.rs lines 86-93):
validate the phone number, then `HashSet::replace`; `Some(old)` is success,
`None` becomes the not-found error (but, per `HashSet::replace`, the contact
has then been added to the set). -/
def replace_contact (pb : PhoneBook) (contact : Contact) :
    PhoneBook × Except Error Unit :=
  match is_valid_phone_number contact.phone_number with
  | Except.error e => (pb, Except.error e)
  | Except.ok _ =>
    let r := hsReplace pb.contacts contact
    match r.snd with
    | some _ => (⟨r.fst⟩, Except.ok ())
    | none => (⟨r.fst⟩, Except.error Error.notFound)

/-- Models `PhoneBook::delete_contact` (src/src/lib.rs lines 95-108):
validate the number, then `HashSet::remove` of a dummy contact with empty
names carrying the number (equality is by phone number only). -/
def delete_contact (pb : PhoneBook) (number : String) :
    PhoneBook × Except Error Unit :=
  match is_valid_phone_number number with
  | Except.error e => (pb, Except.error e)
  | Except.ok _ =>
    let r := hsRemove pb.contacts ⟨"", "", number, none⟩
    if r.snd then (⟨r.fst⟩, Except.ok ())
    else (⟨r.fst⟩, Except.error Error.notFound)

/-- Models `PhoneBook::find_phone_number` (src/src/lib.rs lines 110-117):
validate the number, then linear `find` on the phone-number field. -/
def find_phone_number (pb : PhoneBook) (number : String) :
    Except Error Contact :=
  match is_valid_phone_number number with
  | Except.error e => Except.error e
  | Except.ok _ =>
    match pb.contacts.find? (fun c => c.phone_number == number) with
    | some c => Except.ok c
    | none => Except.error Error.notFound

/-- Models `PhoneBook::find_name` (src/src/lib.rs lines 119-127): filter on
`first_name == first.unwrap_or_default() || last_name ==
last.unwrap_or_default()`; an absent option defaults to the empty string. -/
def find_name (pb : PhoneBook) (first last : Option String) : List Contact :=
  pb.contacts.filter (fun contact =>
    contact.first_name == first.getD "" || contact.last_name == last.getD "")

/-- Models `PhoneBook::find_city` (src/src/lib.rs lines 129-138): filter
keeping contacts whose address is present and whose city equals the query;
contacts with no address never match. -/
def find_city (pb : PhoneBook) (city : String) : List Contact :=
  pb.contacts.filter (fun contact =>
    match contact.address with
    | some address => address.city == city
    | none => false)

/-- The store invariant: no two members (at distinct positions) share a
phone number. -/
def distinctPhones (l : List Contact) : Prop :=
  l.Pairwise (fun a b => a.phone_number ≠ b.phone_number)

instance (l : List Contact) : Decidable (distinctPhones l) :=
  List.instDecidablePairwise l

/-- One mutating call on the store: the argument of `insert_contact`,
`replace_contact` or `delete_contact`. -/
inductive Op where
  | ins (c : Contact)
  | rep (c : Contact)
  | del (number : String)

/-- The store after one mutating call, whether the call succeeds or fails. -/
def applyOp (pb : PhoneBook) : Op → PhoneBook
  | Op.ins c => (insert_contact pb c).fst
  | Op.rep c => (replace_contact pb c).fst
  | Op.del number => (delete_contact pb number).fst

/-- The store after a finite sequence of mutating calls starting from
`PhoneBook::new`. -/
def runOps (ops : List Op) : PhoneBook :=
  ops.foldl applyOp PhoneBook.new

/-- The JSON documents produced and consumed by `save_to_file` and
`new_from_file` (src/src/lib.rs lines 55-74), which serialize the whole
`PhoneBook` with serde_json; the textual rendering and parsing and the file
I/O are abstracted at the level of the JSON document. -/
inductive Json where
  | null
  | str (s : String)
  | arr (elems : List Json)
  | obj (fields : List (String × Json))

/-- String extraction from a JSON value, as serde expects for a `String`
field. -/
def Json.asStr : Json → Option String
  | Json.str s => some s
  | _ => none

/-- Field lookup in a JSON object, first binding wins. -/
def getField (fields : List (String × Json)) (key : String) : Option Json :=
  match fields.find? (fun p => p.fst == key) with
  | some p => some p.snd
  | none => none

/-- Serialization of `Address` as derived by serde: an object with the five
fields in declaration order. -/
def Address.toJson (a : Address) : Json :=
  Json.obj [("street_address", Json.str a.street_address),
            ("city", Json.str a.city),
            ("state", Json.str a.state),
            ("postcode", Json.str a.postcode),
            ("country", Json.str a.country)]

/-- Deserialization of `Address` as derived by serde: every field must be
present and be a string; unknown fields are ignored. -/
def Address.fromJson (j : Json) : Option Address :=
  match j with
  | Json.obj fields => do
    let street ← getField fields "street_address" >>= Json.asStr
    let city ← getField fields "city" >>= Json.asStr
    let state ← getField fields "state" >>= Json.asStr
    let postcode ← getField fields "postcode" >>= Json.asStr
    let country ← getField fields "country" >>= Json.asStr
    some ⟨street, city, state, postcode, country⟩
  | _ => none

/-- Serialization of `Contact` as derived by serde: `None` address becomes
`null`. -/
def Contact.toJson (c : Contact) : Json :=
  Json.obj [("first_name", Json.str c.first_name),
            ("last_name", Json.str c.last_name),
            ("phone_number", Json.str c.phone_number),
            ("address",
              match c.address with
              | some a => Address.toJson a
              | none => Json.null)]

/-- Deserialization of `Contact` as derived by serde: the `Option` address
field is `None` when missing or `null`. -/
def Contact.fromJson (j : Json) : Option Contact :=
  match j with
  | Json.obj fields => do
    let first ← getField fields "first_name" >>= Json.asStr
    let last ← getField fields "last_name" >>= Json.asStr
    let phone ← getField fields "phone_number" >>= Json.asStr
    let addr ←
      match getField fields "address" with
      | none => some (Option.none (α := Address))
      | some Json.null => some none
      | some other => (Address.fromJson other).map some
    some ⟨first, last, phone, addr⟩
  | _ => none

/-- Models the serde serialization performed by `PhoneBook::save_to_file`
(src/src/lib.rs lines 66-74): the store is an object with one field
`contacts` holding the array of serialized contacts. -/
def PhoneBook.toJson (pb : PhoneBook) : Json :=
  Json.obj [("contacts", Json.arr (pb.contacts.map Contact.toJson))]

/-- Deserialization of the contact array, element by element, failing on the
first element that is not a valid contact, as serde does for sequences. -/
def decodeContacts : List Json → Option (List Contact)
  | [] => some []
  | j :: js => do
    let c ← Contact.fromJson j
    let cs ← decodeContacts js
    some (c :: cs)

/-- Models the serde deserialization performed by `PhoneBook::new_from_file`
(src/src/lib.rs lines 55-64): the `contacts` array is collected into the
`HashSet` by repeated `insert` (an element equal to an earlier one is
dropped). -/
def PhoneBook.fromJson (j : Json) : Option PhoneBook :=
  match j with
  | Json.obj fields =>
    match getField fields "contacts" with
    | some (Json.arr elems) => do
      let cs ← decodeContacts elems
      some ⟨cs.foldl (fun acc c => (hsInsert acc c).fst) []⟩
    | _ => none
  | _ => none

end PhoneBookModel

namespace PhoneBookModel

theorem valid_of_len {s : String} (h : strByteLen s = 10) :
    is_valid_phone_number s = Except.ok () := by
  simp [is_valid_phone_number, h]

theorem invalid_of_len {s : String} (h : strByteLen s ≠ 10) :
    is_valid_phone_number s = Except.error Error.invalidPhoneNumber := by
  simp [is_valid_phone_number, h]

theorem hsInsert_of_fresh (l : List Contact) (c : Contact)
    (h : ∀ x ∈ l, x.phone_number ≠ c.phone_number) :
    hsInsert l c = (l ++ [c], true) := by
  have hany : l.any (fun x => contactEq x c) = false := by
    simp only [List.any_eq_false, contactEq, beq_iff_eq]
    exact h
  simp [hsInsert, hany]

theorem hsInsert_of_dup (l : List Contact) (c : Contact)
    (h : ∃ x ∈ l, x.phone_number = c.phone_number) :
    hsInsert l c = (l, false) := by
  have hany : l.any (fun x => contactEq x c) = true := by
    simp only [List.any_eq_true, contactEq, beq_iff_eq]
    exact h
  simp [hsInsert, hany]

theorem hsInsert_snd_false (l : List Contact) (c : Contact)
    (h : (hsInsert l c).snd = false) : (hsInsert l c).fst = l := by
  unfold hsInsert at h ⊢
  split at h
  · simp_all
  · simp_all

theorem hsRemove_snd_false (l : List Contact) (key : Contact)
    (h : (hsRemove l key).snd = false) : (hsRemove l key).fst = l := by
  induction l with
  | nil => rfl
  | cons x xs ih =>
    by_cases hx : contactEq x key = true
    · simp [hsRemove, hx] at h
    · simp [hsRemove, hx] at h ⊢
      exact ih h

/-- C7: find_name returns exactly the contacts whose first name equals the
supplied first name (empty string when absent) OR whose last name equals the
supplied last name (empty string when absent); it is a plain filter, so no
error is possible and an empty result is an ordinary value. -/
theorem find_name_spec (pb : PhoneBook) (first last : Option String)
    (c : Contact) :
    c ∈ find_name pb first last ↔
      c ∈ pb.contacts ∧
        (c.first_name = first.getD "" ∨ c.last_name = last.getD "") := by
  simp [find_name, List.mem_filter]

/-- C8: find_city returns exactly the contacts that have an address whose
city equals the query string; a contact without an address never appears. -/
theorem find_city_spec (pb : PhoneBook) (city : String) (c : Contact) :
    c ∈ find_city pb city ↔
      c ∈ pb.contacts ∧ ∃ a, c.address = some a ∧ a.city = city := by
  cases h : c.address with
  | none => simp [find_city, List.mem_filter, h]
  | some a => simp [find_city, List.mem_filter, h]

/-- C1: evaluation at the failing input: on the empty store, replacing a
contact with a valid, absent phone number returns the not-found error, yet
the store after the call CONTAINS the contact — `HashSet::replace` inserts
the value even when no equal member existed, so the store is not unchanged
as the claim states. -/
theorem replace_missing_inserts_eval :
    replace_contact PhoneBook.new ⟨"Jane", "Doe", "0123456789", none⟩ =
      (⟨[⟨"Jane", "Doe", "0123456789", none⟩]⟩, Except.error Error.notFound) :=
  rfl

/-- C2 counterexample: the five-character string of five two-byte letters
has ten BYTES, so `str::len() == 10` holds and insertion SUCCEEDS even
though the phone number does not have ten characters, contradicting the
claim that every operation rejects it with the invalid-phone error. -/
theorem short_phone_accepted_counterexample :
    ("ααααα" : String).length ≠ 10 ∧
    insert_contact PhoneBook.new ⟨"Alice", "Smith", "ααααα", none⟩ =
      (⟨[⟨"Alice", "Smith", "ααααα", none⟩]⟩, Except.ok ()) :=
  ⟨by decide, rfl⟩

/-- C2 (amended to byte length): every phone-number string whose UTF-8 byte
length (Rust `str::len`) is not exactly 10 is rejected by insert, replace,
delete and find-by-phone with the invalid-phone error, and the store is left
unchanged by the three mutating operations. -/
theorem invalid_phone_rejected (pb : PhoneBook) (c : Contact) (number : String)
    (hc : strByteLen c.phone_number ≠ 10) (hn : strByteLen number ≠ 10) :
    insert_contact pb c = (pb, Except.error Error.invalidPhoneNumber) ∧
    replace_contact pb c = (pb, Except.error Error.invalidPhoneNumber) ∧
    delete_contact pb number = (pb, Except.error Error.invalidPhoneNumber) ∧
    find_phone_number pb number = Except.error Error.invalidPhoneNumber := by
  refine ⟨?_, ?_, ?_, ?_⟩ <;>
    simp [insert_contact, replace_contact, delete_contact, find_phone_number,
      invalid_of_len hc, invalid_of_len hn]

theorem invalid_phone_rejected_witness :
    insert_contact PhoneBook.new ⟨"A", "B", "123", none⟩ =
      (PhoneBook.new, Except.error Error.invalidPhoneNumber) ∧
    replace_contact PhoneBook.new ⟨"A", "B", "123", none⟩ =
      (PhoneBook.new, Except.error Error.invalidPhoneNumber) ∧
    delete_contact PhoneBook.new "123" =
      (PhoneBook.new, Except.error Error.invalidPhoneNumber) ∧
    find_phone_number PhoneBook.new "123" =
      Except.error Error.invalidPhoneNumber :=
  invalid_phone_rejected PhoneBook.new ⟨"A", "B", "123", none⟩ "123"
    (by decide) (by decide)

/-- C5 counterexample: a phone number of exactly ten characters, each two
bytes in UTF-8, is absent from the empty store, yet insertion FAILS with the
invalid-phone error because `str::len()` counts 20 bytes, contradicting the
claim that a fresh ten-character phone number always inserts
successfully. -/
theorem ten_char_phone_rejected_counterexample :
    ("αααααααααα" : String).length = 10 ∧
    PhoneBook.new.contacts = [] ∧
    insert_contact PhoneBook.new ⟨"Ann", "Lee", "αααααααααα", none⟩ =
      (PhoneBook.new, Except.error Error.invalidPhoneNumber) :=
  ⟨by decide, rfl, rfl⟩

/-- C5 (amended to byte length): inserting a contact whose phone number has
UTF-8 byte length exactly 10 and is not the phone number of any member
succeeds, and the new store is the old membership plus the new contact. -/
theorem insert_fresh_succeeds (pb : PhoneBook) (c : Contact)
    (hv : strByteLen c.phone_number = 10)
    (hfresh : ∀ m ∈ pb.contacts, m.phone_number ≠ c.phone_number) :
    insert_contact pb c = (⟨pb.contacts ++ [c]⟩, Except.ok ()) := by
  simp [insert_contact, valid_of_len hv, hsInsert_of_fresh pb.contacts c hfresh]

theorem insert_fresh_succeeds_witness :
    insert_contact PhoneBook.new ⟨"Jane", "Doe", "5551234567", none⟩ =
      (⟨PhoneBook.new.contacts ++ [⟨"Jane", "Doe", "5551234567", none⟩]⟩,
        Except.ok ()) :=
  insert_fresh_succeeds PhoneBook.new ⟨"Jane", "Doe", "5551234567", none⟩
    (by decide) (by decide)

end PhoneBookModel

namespace PhoneBookModel

theorem hsReplace_append (l1 l2 : List Contact) (m c : Contact)
    (hm : m.phone_number = c.phone_number)
    (hl1 : ∀ x ∈ l1, x.phone_number ≠ c.phone_number) :
    hsReplace (l1 ++ m :: l2) c = (l1 ++ c :: l2, some m) := by
  induction l1 with
  | nil =>
    have hmc : contactEq m c = true := by
      simp only [contactEq, beq_iff_eq]; exact hm
    simp [hsReplace, hmc]
  | cons x xs ih =>
    have hx : contactEq x c = false := by
      simp only [contactEq, beq_eq_false_iff_ne, ne_eq]
      exact hl1 x (by simp)
    simp [hsReplace, hx, ih (fun y hy => hl1 y (by simp [hy]))]

theorem hsReplace_mem (l : List Contact) (c y : Contact)
    (h : y ∈ (hsReplace l c).fst) : y = c ∨ y ∈ l := by
  induction l with
  | nil =>
    simp only [hsReplace, List.mem_singleton] at h
    exact Or.inl h
  | cons x xs ih =>
    cases hxc : contactEq x c with
    | true =>
      simp only [hsReplace, hxc, if_true, List.mem_cons] at h
      rcases h with h | h
      · exact Or.inl h
      · exact Or.inr (by simp [h])
    | false =>
      simp only [hsReplace, hxc, Bool.false_eq_true, if_false, List.mem_cons] at h
      rcases h with h | h
      · exact Or.inr (by simp [h])
      · rcases ih h with h2 | h2
        · exact Or.inl h2
        · exact Or.inr (by simp [h2])

theorem distinct_hsReplace (l : List Contact) (c : Contact)
    (h : distinctPhones l) : distinctPhones (hsReplace l c).fst := by
  induction l with
  | nil =>
    simp [hsReplace, distinctPhones]
  | cons x xs ih =>
    rw [distinctPhones, List.pairwise_cons] at h
    obtain ⟨hx, hxs⟩ := h
    cases hxc : contactEq x c with
    | true =>
      have hpc : x.phone_number = c.phone_number := by
        simpa only [contactEq, beq_iff_eq] using hxc
      simp only [hsReplace, hxc, if_true]
      rw [distinctPhones, List.pairwise_cons]
      exact ⟨fun y hy => hpc ▸ hx y hy, hxs⟩
    | false =>
      have hpc : x.phone_number ≠ c.phone_number := by
        simpa only [contactEq, beq_eq_false_iff_ne, ne_eq] using hxc
      simp only [hsReplace, hxc, Bool.false_eq_true, if_false]
      rw [distinctPhones, List.pairwise_cons]
      constructor
      · intro y hy
        rcases hsReplace_mem xs c y hy with rfl | hmem
        · exact hpc
        · exact hx y hmem
      · exact ih hxs

theorem hsRemove_sublist (l : List Contact) (key : Contact) :
    List.Sublist (hsRemove l key).fst l := by
  induction l with
  | nil => simp [hsRemove]
  | cons x xs ih =>
    cases hxc : contactEq x key with
    | true =>
      simp only [hsRemove, hxc, if_true]
      exact (List.Sublist.refl xs).cons x
    | false =>
      simp only [hsRemove, hxc, Bool.false_eq_true, if_false]
      exact ih.cons₂ x

theorem distinct_hsInsert (l : List Contact) (c : Contact)
    (h : distinctPhones l) : distinctPhones (hsInsert l c).fst := by
  unfold hsInsert
  cases hany : l.any (fun x => contactEq x c) with
  | true => simpa using h
  | false =>
    have hfresh : ∀ x ∈ l, x.phone_number ≠ c.phone_number := by
      simpa only [List.any_eq_false, contactEq, beq_iff_eq] using hany
    simp only [Bool.false_eq_true, if_false]
    rw [distinctPhones, List.pairwise_append]
    refine ⟨h, List.pairwise_singleton _ _, ?_⟩
    intro a ha b hb
    rw [List.mem_singleton] at hb
    subst hb
    exact hfresh a ha

theorem distinct_applyOp (pb : PhoneBook) (o : Op)
    (h : distinctPhones pb.contacts) :
    distinctPhones (applyOp pb o).contacts := by
  cases o with
  | ins c =>
    show distinctPhones (insert_contact pb c).fst.contacts
    unfold insert_contact
    cases hval : is_valid_phone_number c.phone_number with
    | error e => simpa using h
    | ok u =>
      cases hsnd : (hsInsert pb.contacts c).snd with
      | true => simpa [hsnd] using distinct_hsInsert pb.contacts c h
      | false => simpa [hsnd] using distinct_hsInsert pb.contacts c h
  | rep c =>
    show distinctPhones (replace_contact pb c).fst.contacts
    unfold replace_contact
    cases hval : is_valid_phone_number c.phone_number with
    | error e => simpa using h
    | ok u =>
      cases hsnd : (hsReplace pb.contacts c).snd with
      | none => simpa [hsnd] using distinct_hsReplace pb.contacts c h
      | some old => simpa [hsnd] using distinct_hsReplace pb.contacts c h
  | del number =>
    show distinctPhones (delete_contact pb number).fst.contacts
    unfold delete_contact
    cases hval : is_valid_phone_number number with
    | error e => simpa using h
    | ok u =>
      have hsub :
          distinctPhones (hsRemove pb.contacts ⟨"", "", number, none⟩).fst :=
        List.Pairwise.sublist (hsRemove_sublist pb.contacts _) h
      cases hsnd : (hsRemove pb.contacts ⟨"", "", number, none⟩).snd with
      | true => simpa [hsnd] using hsub
      | false => simpa [hsnd] using hsub

/-- C3: whatever finite sequence of insert, replace and delete calls is made
starting from the empty store, and whatever their arguments and outcomes,
the resulting store never holds two members with the same phone number. -/
theorem store_phones_always_distinct (ops : List Op) :
    distinctPhones (runOps ops).contacts := by
  have key : ∀ (l : List Op) (pb : PhoneBook), distinctPhones pb.contacts →
      distinctPhones (l.foldl applyOp pb).contacts := by
    intro l
    induction l with
    | nil => intro pb h; exact h
    | cons o os ih =>
      intro pb h
      exact ih _ (distinct_applyOp pb o h)
  exact key ops PhoneBook.new (by simp [PhoneBook.new, distinctPhones])

/-- C4: inserting a contact whose (validation-passing) phone number is
already the phone number of a member fails with the duplicate error and the
whole store — including every field of the previously stored member — is
exactly what it was before the call. -/
theorem insert_duplicate_rejected (pb : PhoneBook) (c : Contact)
    (hv : strByteLen c.phone_number = 10)
    (hdup : ∃ m ∈ pb.contacts, m.phone_number = c.phone_number) :
    insert_contact pb c = (pb, Except.error Error.duplicateContact) := by
  simp [insert_contact, valid_of_len hv, hsInsert_of_dup pb.contacts c hdup]

theorem insert_duplicate_rejected_witness :
    insert_contact ⟨[⟨"Jane", "Doe", "5551234567", none⟩]⟩
        ⟨"John", "Smith", "5551234567", none⟩ =
      (⟨[⟨"Jane", "Doe", "5551234567", none⟩]⟩,
        Except.error Error.duplicateContact) :=
  insert_duplicate_rejected ⟨[⟨"Jane", "Doe", "5551234567", none⟩]⟩
    ⟨"John", "Smith", "5551234567", none⟩ (by decide)
    ⟨⟨"Jane", "Doe", "5551234567", none⟩, by simp, rfl⟩

/-- C6: replacing with a contact whose (validation-passing) phone number is
held by member m succeeds, and the store keeps every other member in place
while the slot that held m now holds the new contact with ALL of its fields
(no merging with m's old fields). -/
theorem replace_existing_whole_record (pb : PhoneBook) (m c : Contact)
    (hd : distinctPhones pb.contacts) (hmem : m ∈ pb.contacts)
    (hm : m.phone_number = c.phone_number)
    (hv : strByteLen c.phone_number = 10) :
    (replace_contact pb c).snd = Except.ok () ∧
    ∃ l1 l2, pb.contacts = l1 ++ m :: l2 ∧
      (replace_contact pb c).fst.contacts = l1 ++ c :: l2 := by
  obtain ⟨l1, l2, hsplit⟩ := List.append_of_mem hmem
  have hl1 : ∀ x ∈ l1, x.phone_number ≠ c.phone_number := by
    intro x hx
    have hd2 := hd
    rw [hsplit, distinctPhones, List.pairwise_append] at hd2
    have hxm := hd2.2.2 x hx m (by simp)
    rw [← hm]
    exact hxm
  have hrep := hsReplace_append l1 l2 m c hm hl1
  constructor
  · simp [replace_contact, valid_of_len hv, hsplit, hrep]
  · exact ⟨l1, l2, hsplit, by simp [replace_contact, valid_of_len hv, hsplit, hrep]⟩

theorem replace_existing_whole_record_witness :
    (replace_contact ⟨[⟨"Jane", "Doe", "5551234567", none⟩]⟩
        ⟨"Janet", "Roe", "5551234567", none⟩).snd = Except.ok () ∧
    ∃ l1 l2,
      (⟨[⟨"Jane", "Doe", "5551234567", none⟩]⟩ : PhoneBook).contacts =
        l1 ++ ⟨"Jane", "Doe", "5551234567", none⟩ :: l2 ∧
      (replace_contact ⟨[⟨"Jane", "Doe", "5551234567", none⟩]⟩
          ⟨"Janet", "Roe", "5551234567", none⟩).fst.contacts =
        l1 ++ ⟨"Janet", "Roe", "5551234567", none⟩ :: l2 :=
  replace_existing_whole_record ⟨[⟨"Jane", "Doe", "5551234567", none⟩]⟩
    ⟨"Jane", "Doe", "5551234567", none⟩ ⟨"Janet", "Roe", "5551234567", none⟩
    (by decide) (by simp) rfl (by decide)

/-- C10: whenever insert or delete returns any error the store is exactly
what it was before the call, and a replace that fails validation returns the
invalid-phone error with the store unchanged. -/
theorem failed_mutation_leaves_store (pb : PhoneBook) (c : Contact)
    (number : String) :
    (∀ e, (insert_contact pb c).snd = Except.error e →
      (insert_contact pb c).fst = pb) ∧
    (∀ e, (delete_contact pb number).snd = Except.error e →
      (delete_contact pb number).fst = pb) ∧
    (strByteLen c.phone_number ≠ 10 →
      replace_contact pb c = (pb, Except.error Error.invalidPhoneNumber)) := by
  refine ⟨?_, ?_, ?_⟩
  · intro e h
    unfold insert_contact at h ⊢
    cases hval : is_valid_phone_number c.phone_number with
    | error e2 => simp [hval]
    | ok u =>
      simp only [hval] at h ⊢
      cases hsnd : (hsInsert pb.contacts c).snd with
      | true => simp [hsnd] at h
      | false =>
        simp only [hsnd, Bool.false_eq_true, if_false]
        rw [hsInsert_snd_false pb.contacts c hsnd]
  · intro e h
    unfold delete_contact at h ⊢
    cases hval : is_valid_phone_number number with
    | error e2 => simp [hval]
    | ok u =>
      simp only [hval] at h ⊢
      cases hsnd : (hsRemove pb.contacts ⟨"", "", number, none⟩).snd with
      | true => simp [hsnd] at h
      | false =>
        simp only [hsnd, Bool.false_eq_true, if_false]
        rw [hsRemove_snd_false pb.contacts _ hsnd]
  · intro hbad
    simp [replace_contact, invalid_of_len hbad]

theorem failed_mutation_leaves_store_witness :
    (insert_contact PhoneBook.new ⟨"A", "B", "12345", none⟩).fst =
      PhoneBook.new ∧
    (delete_contact PhoneBook.new "12345").fst = PhoneBook.new ∧
    replace_contact PhoneBook.new ⟨"A", "B", "12345", none⟩ =
      (PhoneBook.new, Except.error Error.invalidPhoneNumber) :=
  ⟨(failed_mutation_leaves_store PhoneBook.new ⟨"A", "B", "12345", none⟩
      "12345").1 Error.invalidPhoneNumber rfl,
   (failed_mutation_leaves_store PhoneBook.new ⟨"A", "B", "12345", none⟩
      "12345").2.1 Error.invalidPhoneNumber rfl,
   (failed_mutation_leaves_store PhoneBook.new ⟨"A", "B", "12345", none⟩
      "12345").2.2 (by decide)⟩

end PhoneBookModel

namespace PhoneBookModel

theorem Address_roundtrip (a : Address) :
    Address.fromJson (Address.toJson a) = some a := rfl

theorem Contact_roundtrip (c : Contact) :
    Contact.fromJson (Contact.toJson c) = some c := by
  obtain ⟨f, l, p, addr⟩ := c
  cases addr with
  | none => rfl
  | some a => rfl

theorem decodeContacts_map_toJson (l : List Contact) :
    decodeContacts (l.map Contact.toJson) = some l := by
  induction l with
  | nil => rfl
  | cons c cs ih =>
    simp [decodeContacts, Contact_roundtrip, ih]

theorem foldl_hsInsert_of_distinct (l : List Contact) :
    ∀ acc : List Contact, distinctPhones (acc ++ l) →
      l.foldl (fun a c => (hsInsert a c).fst) acc = acc ++ l := by
  induction l with
  | nil => intro acc h; simp
  | cons c cs ih =>
    intro acc h
    have hfresh : ∀ x ∈ acc, x.phone_number ≠ c.phone_number := by
      rw [distinctPhones, List.pairwise_append] at h
      intro x hx
      exact h.2.2 x hx c (by simp)
    rw [List.foldl_cons]
    have hins : (hsInsert acc c).fst = acc ++ [c] := by
      rw [hsInsert_of_fresh acc c hfresh]
    rw [hins]
    have happ : distinctPhones ((acc ++ [c]) ++ cs) := by
      rw [List.append_assoc]
      simpa using h
    rw [ih (acc ++ [c]) happ]
    simp

/-- C9: serializing a store (as save_to_file does with serde) and
deserializing the result (as new_from_file does) yields exactly the same
membership with every field of every contact — including the five fields of
an optional address — preserved; the hypothesis is the store invariant that
`HashSet` maintains by construction. -/
theorem save_load_roundtrip (pb : PhoneBook)
    (hd : distinctPhones pb.contacts) :
    PhoneBook.fromJson (PhoneBook.toJson pb) = some pb := by
  have h1 : getField [("contacts", Json.arr (pb.contacts.map Contact.toJson))]
      "contacts" = some (Json.arr (pb.contacts.map Contact.toJson)) := rfl
  simp only [PhoneBook.toJson, PhoneBook.fromJson, h1]
  rw [decodeContacts_map_toJson]
  show some (⟨pb.contacts.foldl (fun a c => (hsInsert a c).fst) []⟩ :
    PhoneBook) = some pb
  rw [foldl_hsInsert_of_distinct pb.contacts [] (by simpa using hd)]
  rfl

theorem save_load_roundtrip_witness :
    PhoneBook.fromJson (PhoneBook.toJson
      ⟨[⟨"Ann", "Lee", "1112223333",
          some ⟨"1 Main St", "Springfield", "VIC", "3000", "AU"⟩⟩,
        ⟨"Bob", "Lee", "4445556666", none⟩]⟩) =
      some (⟨[⟨"Ann", "Lee", "1112223333",
          some ⟨"1 Main St", "Springfield", "VIC", "3000", "AU"⟩⟩,
        ⟨"Bob", "Lee", "4445556666", none⟩]⟩ : PhoneBook) :=
  save_load_roundtrip
    ⟨[⟨"Ann", "Lee", "1112223333",
        some ⟨"1 Main St", "Springfield", "VIC", "3000", "AU"⟩⟩,
      ⟨"Bob", "Lee", "4445556666", none⟩]⟩ (by decide)

end PhoneBookModel
